import Mathlib

/-!
Verification of the attendance-aggregation engine of vrcx_query.py.

The script reads the gamelog_join_leave table of a VRCX SQLite database and
computes time-bucketed attendance reports.  Below, each SQL query of the
script is embedded as a Lean function over an explicit list of rows:

* a timestamp is represented by its DATE(created_at) component as a day
  number (an Int, with day 0 chosen to be a Sunday, so that SQLite's
  strftime('%w', ...) is the day number modulo 7, 0 = Sunday) together with
  its strftime('%H', ...) hour component (a Nat);
* TEXT columns are Lean Strings; SQLite's SUBSTR counts characters, which is
  List.take on String.data;
* COUNT(*) is List.length, COUNT(DISTINCT display_name) is the length of the
  dedup of the mapped names, GROUP BY is dedup of the key list, ORDER BY is
  insertionSort by the key;
* AVG is the rational mean and ROUND is SQLite's round-half-away-from-zero,
  embedded over the rationals;
* datetime.now(), read by the script for its partial-current-day rule, is an
  explicit Clock parameter (its date and hour components are all the script
  uses).
-/

namespace VRCX

/-- Row of the gamelog_join_leave table, restricted to the columns the
aggregation queries read: DATE(created_at) as a day number, the hour
component strftime('%H', created_at), the event type ('join'/'leave'),
display_name, and the composite location string. -/
structure JoinLeaveRow where
  date : Int
  hour : Nat
  event_type : String
  display_name : String
  location : String
deriving DecidableEq

/-- A snapshot of the gamelog_join_leave table. -/
abbrev Database := List JoinLeaveRow

/-- The components of datetime.now() that the script reads: the current
date (as a day number) and the current hour. -/
structure Clock where
  date : Int
  hour : Nat
deriving DecidableEq

/-- Embeds the pattern shared by all single-date queries:
is_today = (date_str == today), current_hour = now.hour if today else 23
(vrcx_query.py lines 233-235 and the analogous lines of the other
single-date functions). -/
def currentHour (date_str : Int) (now : Clock) : Nat :=
  if date_str = now.date then now.hour else 23

/-- The hours CTE (SELECT 0 AS hour UNION ALL ... SELECT 23) restricted by
WHERE h.hour <= current_hour, in ascending order (GROUP BY/ORDER BY h.hour). -/
def includedHours (date_str : Int) (now : Clock) : List Nat :=
  (List.range 24).filter (fun h => decide (h ≤ currentHour date_str now))

/-- Rows joined to a given hour slot for a given date:
DATE(j.created_at) = date_str AND CAST(strftime('%H', j.created_at) AS
INTEGER) = h. -/
def matchingRows (db : Database) (date_str : Int) (h : Nat) : Database :=
  db.filter (fun r => r.date == date_str && r.hour == h)

/-- COUNT(DISTINCT j.display_name) over a list of rows. -/
def distinctNames (rows : Database) : List String :=
  (rows.map (fun r => r.display_name)).dedup

/-- get_hour_by_hour_summary (vrcx_query.py lines 221-257): for each hour
slot up to current_hour, COUNT(j.display_name) over the LEFT JOIN, which is
the number of rows of that date falling in that hour. -/
def get_hour_by_hour_summary (db : Database) (date_str : Int) (now : Clock) :
    List (Nat × Nat) :=
  (includedHours date_str now).map
    (fun h => (h, (matchingRows db date_str h).length))

/-- get_unique_visitors_by_hour (vrcx_query.py lines 459-496): same join,
COUNT(DISTINCT j.display_name). -/
def get_unique_visitors_by_hour (db : Database) (date_str : Int) (now : Clock) :
    List (Nat × Nat) :=
  (includedHours date_str now).map
    (fun h => (h, (distinctNames (matchingRows db date_str h)).length))

/-- Rows of a given date and hour further restricted by j.location =
instance_id (exact equality on the location column). -/
def instanceRows (db : Database) (instance_id : String) (date_str : Int)
    (h : Nat) : Database :=
  db.filter (fun r => r.date == date_str && r.hour == h && r.location == instance_id)

/-- get_hour_by_hour_summary_for_instance (vrcx_query.py lines 707-749). -/
def get_hour_by_hour_summary_for_instance (db : Database) (instance_id : String)
    (date_str : Int) (now : Clock) : List (Nat × Nat) :=
  (includedHours date_str now).map
    (fun h => (h, (instanceRows db instance_id date_str h).length))

/-- get_unique_visitors_by_hour_for_instance (vrcx_query.py lines 751-793). -/
def get_unique_visitors_by_hour_for_instance (db : Database)
    (instance_id : String) (date_str : Int) (now : Clock) : List (Nat × Nat) :=
  (includedHours date_str now).map
    (fun h => (h, (distinctNames (instanceRows db instance_id date_str h)).length))

/-- The world filter SUBSTR(j.location, 1, ?) = ? with parameters
(len(world_id), world_id) (vrcx_query.py lines 864, 698, 911): the first
len(world_id) characters of location compared to world_id verbatim. -/
def substrMatch (location world_id : String) : Bool :=
  location.data.take world_id.data.length == world_id.data

/-- Rows of a given date and hour restricted by the world filter. -/
def worldRows (db : Database) (world_id : String) (date_str : Int)
    (h : Nat) : Database :=
  db.filter (fun r => r.date == date_str && r.hour == h && substrMatch r.location world_id)

/-- get_hour_by_hour_summary_for_world (vrcx_query.py lines 828-873). -/
def get_hour_by_hour_summary_for_world (db : Database) (world_id : String)
    (date_str : Int) (now : Clock) : List (Nat × Nat) :=
  (includedHours date_str now).map
    (fun h => (h, (worldRows db world_id date_str h).length))

/-- get_unique_visitors_by_hour_for_world (vrcx_query.py lines 875-920). -/
def get_unique_visitors_by_hour_for_world (db : Database) (world_id : String)
    (date_str : Int) (now : Clock) : List (Nat × Nat) :=
  (includedHours date_str now).map
    (fun h => (h, (distinctNames (worldRows db world_id date_str h)).length))

/-- WHERE DATE(created_at) BETWEEN start AND end (dates in YYYY-MM-DD format
compare lexicographically, i.e. chronologically, hence the day-number
comparison). -/
def rangeRows (db : Database) (start_date end_date : Int) : Database :=
  db.filter (fun r => decide (start_date ≤ r.date) && decide (r.date ≤ end_date))

/-- The keys of GROUP BY DATE(created_at), hour over the range rows. -/
def dayHourPairs (db : Database) (start_date end_date : Int) : List (Int × Nat) :=
  ((rangeRows db start_date end_date).map (fun r => (r.date, r.hour))).dedup

/-- The rows of one (date, hour) group. -/
def groupRows (db : Database) (start_date end_date : Int) (d : Int) (h : Nat) :
    Database :=
  (rangeRows db start_date end_date).filter (fun r => r.date == d && r.hour == h)

/-- The hourly_data CTE of get_hour_by_hour_average (vrcx_query.py lines
282-290): per (date, hour) group, COUNT(*). -/
def hourly_data (db : Database) (start_date end_date : Int) :
    List (Int × Nat × Nat) :=
  (dayHourPairs db start_date end_date).map
    (fun p => (p.1, p.2, (groupRows db start_date end_date p.1 p.2).length))

/-- The hourly_data CTE of get_unique_visitors_average (vrcx_query.py lines
547-555): per (date, hour) group, COUNT(DISTINCT display_name). -/
def hourly_data_unique (db : Database) (start_date end_date : Int) :
    List (Int × Nat × Nat) :=
  (dayHourPairs db start_date end_date).map
    (fun p => (p.1, p.2, (distinctNames (groupRows db start_date end_date p.1 p.2)).length))

/-- SQL AVG over a list of integer counts: the rational mean. -/
def listAvg (l : List Nat) : ℚ :=
  (l.sum : ℚ) / (l.length : ℚ)

/-- SQLite ROUND to 0 digits: round half away from zero. -/
def sqliteRound (q : ℚ) : ℤ :=
  if 0 ≤ q then ⌊q + 1 / 2⌋ else -⌊-q + 1 / 2⌋

/-- The counts joined to one hour slot of the hours CTE:
LEFT JOIN hourly_data hd ON h.hour = hd.hour picks every group of that hour. -/
def hourGroup (hd : List (Int × Nat × Nat)) (h : Nat) : List Nat :=
  (hd.filter (fun t => t.2.1 == h)).map (fun t => t.2.2)

/-- CAST(ROUND(AVG(COALESCE(hd.count, 0))) AS INTEGER): when the LEFT JOIN
finds no group for the hour, the single joined row is NULL and COALESCE makes
the average 0; otherwise the average runs over the joined groups. -/
def avgColumn (counts : List Nat) : ℤ :=
  if counts.isEmpty then 0 else sqliteRound (listAvg counts)

/-- get_hour_by_hour_average (vrcx_query.py lines 259-301). -/
def get_hour_by_hour_average (db : Database) (start_date end_date : Int) :
    List (Nat × ℤ) :=
  (List.range 24).map
    (fun h => (h, avgColumn (hourGroup (hourly_data db start_date end_date) h)))

/-- get_unique_visitors_average (vrcx_query.py lines 524-566). -/
def get_unique_visitors_average (db : Database) (start_date end_date : Int) :
    List (Nat × ℤ) :=
  (List.range 24).map
    (fun h => (h, avgColumn (hourGroup (hourly_data_unique db start_date end_date) h)))

/-- ORDER BY DATE(created_at) ASC, hour ASC on (date, hour) keys. -/
def pairLe (a b : Int × Nat) : Prop :=
  a.1 < b.1 ∨ (a.1 = b.1 ∧ a.2 ≤ b.2)

instance : DecidableRel pairLe := fun a b => by
  unfold pairLe
  infer_instance

/-- get_daily_hourly_summary (vrcx_query.py lines 303-328): COUNT(*) per
(date, hour) group, ordered by date then hour. -/
def get_daily_hourly_summary (db : Database) (start_date end_date : Int) :
    List (Int × Nat × Nat) :=
  ((dayHourPairs db start_date end_date).insertionSort pairLe).map
    (fun p => (p.1, p.2, (groupRows db start_date end_date p.1 p.2).length))

/-- The keys of GROUP BY DATE(created_at) over the range rows. -/
def dates_in_data (db : Database) (start_date end_date : Int) : List Int :=
  ((rangeRows db start_date end_date).map (fun r => r.date)).dedup

/-- The rows of one calendar-date group. -/
def dayRows (db : Database) (start_date end_date : Int) (d : Int) : Database :=
  (rangeRows db start_date end_date).filter (fun r => r.date == d)

/-- SQLite strftime('%w', date): day of week 0-6 with 0 = Sunday.  Day 0 of
the day-number encoding is chosen to be a Sunday. -/
def dow (d : Int) : Nat :=
  (d % 7).toNat

/-- The per-date COUNT(*) values of the dates whose day of week is w
(the group AVG(total_people) runs over in get_day_of_week_average). -/
def dowGroupRaw (db : Database) (start_date end_date : Int) (w : Nat) :
    List Nat :=
  ((dates_in_data db start_date end_date).filter (fun d => dow d == w)).map
    (fun d => (dayRows db start_date end_date d).length)

/-- The per-date COUNT(DISTINCT display_name) values of the dates whose day
of week is w (get_unique_visitors_day_of_week). -/
def dowGroupUnique (db : Database) (start_date end_date : Int) (w : Nat) :
    List Nat :=
  ((dates_in_data db start_date end_date).filter (fun d => dow d == w)).map
    (fun d => (distinctNames (dayRows db start_date end_date d)).length)

/-- The day-of-week keys produced by GROUP BY day_of_week ORDER BY
day_of_week: each occurring key once, ascending.  All keys are < 7, so
filtering List.range 7 enumerates them in order. -/
def occurringDows (db : Database) (start_date end_date : Int) : List Nat :=
  (List.range 7).filter
    (fun w => decide (w ∈ (dates_in_data db start_date end_date).map dow))

/-- get_day_of_week_average (vrcx_query.py lines 330-360):
ROUND(AVG(total_people)) per occurring day of week.  The SQL leaves the
ROUND result as an integral REAL; it is embedded as the integer itself. -/
def get_day_of_week_average (db : Database) (start_date end_date : Int) :
    List (Nat × ℤ) :=
  (occurringDows db start_date end_date).map
    (fun w => (w, sqliteRound (listAvg (dowGroupRaw db start_date end_date w))))

/-- get_unique_visitors_day_of_week (vrcx_query.py lines 568-598). -/
def get_unique_visitors_day_of_week (db : Database) (start_date end_date : Int) :
    List (Nat × ℤ) :=
  (occurringDows db start_date end_date).map
    (fun w => (w, sqliteRound (listAvg (dowGroupUnique db start_date end_date w))))

/-- SQLite DATE(d, 'weekday 0'): the nearest date on or after d that falls
on a Sunday (d itself when d is a Sunday). -/
def weekEnd (d : Int) : Int :=
  d + (7 - d % 7) % 7

/-- SQLite DATE(d, 'weekday 0', '-6 days'). -/
def weekStart (d : Int) : Int :=
  weekEnd d - 6

/-- The CASE expression mapping strftime('%w', ...) to a weekday name. -/
def dayName (w : Nat) : String :=
  match w with
  | 0 => "Sunday"
  | 1 => "Monday"
  | 2 => "Tuesday"
  | 3 => "Wednesday"
  | 4 => "Thursday"
  | 5 => "Friday"
  | 6 => "Saturday"
  | _ => ""

/-- Output row shape of the weekly breakdown queries. -/
structure WeeklyRow where
  week_start : Int
  week_end : Int
  day_of_week : Nat
  day_name : String
  count : Nat
deriving DecidableEq

/-- ORDER BY week_start, day_of_week, as an order on the underlying dates
(each date produces one output row, and its sort key is a function of the
date). -/
def weekKeyLe (d1 d2 : Int) : Prop :=
  weekStart d1 < weekStart d2 ∨ (weekStart d1 = weekStart d2 ∧ dow d1 ≤ dow d2)

instance : DecidableRel weekKeyLe := fun a b => by
  unfold weekKeyLe
  infer_instance

/-- get_weekly_day_of_week_breakdown (vrcx_query.py lines 362-407): one row
per date with data in the range, carrying that date's week bucket and
COUNT(*), ordered by week_start then day_of_week.  (The outer GROUP BY
includes the date, so it does not merge any inner rows.) -/
def get_weekly_day_of_week_breakdown (db : Database) (start_date end_date : Int) :
    List WeeklyRow :=
  ((dates_in_data db start_date end_date).insertionSort weekKeyLe).map
    (fun d => ⟨weekStart d, weekEnd d, dow d, dayName (dow d),
      (dayRows db start_date end_date d).length⟩)

/-- get_unique_visitors_weekly (vrcx_query.py lines 600-645): same shape
with COUNT(DISTINCT display_name) per date. -/
def get_unique_visitors_weekly (db : Database) (start_date end_date : Int) :
    List WeeklyRow :=
  ((dates_in_data db start_date end_date).insertionSort weekKeyLe).map
    (fun d => ⟨weekStart d, weekEnd d, dow d, dayName (dow d),
      (distinctNames (dayRows db start_date end_date d)).length⟩)

/-- VRCXDatabase.execute (vrcx_query.py lines 108-125): a sqlite3.Error
raised by the query is caught, logged, and turned into the empty row list;
a successful query returns its rows. -/
def execute {α : Type} (result : Except String (List α)) : List α :=
  match result with
  | Except.ok rows => rows
  | Except.error _ => []

/-- The hour-by-hour summary as produced through VRCXDatabase.execute from a
store that either serves the table or fails the read. -/
def get_hour_by_hour_summary_from_store (store : Except String Database)
    (date_str : Int) (now : Clock) : List (Nat × Nat) :=
  execute (store.map (fun rows => get_hour_by_hour_summary rows date_str now))

/-- The instance-id materialization of main (vrcx_query.py lines 2100-2102):
if a world id is supplied and the instance fragment does not contain the
':' delimiter, the fragment is replaced by world_id ++ ":" ++ fragment. -/
def materialize_instance_id (world_id : Option String) (instance_id : String) :
    String :=
  match world_id with
  | some w => if ':' ∈ instance_id.data then instance_id else w ++ ":" ++ instance_id
  | none => instance_id

/-- The distinct dates that have at least one row in hour h within the
range: the days the implementation actually averages over for that hour. -/
def daysWithData (db : Database) (start_date end_date : Int) (h : Nat) :
    List Int :=
  (((rangeRows db start_date end_date).filter (fun r => r.hour == h)).map
    (fun r => r.date)).dedup

/-- Every day of the inclusive range, in order. -/
def rangeDays (start_date end_date : Int) : List Int :=
  (List.range (end_date + 1 - start_date).toNat).map (fun i => start_date + i)

/-- Modelled from the spec: the multi-day hourly average with zero-filling
per (day, hour) combination across the whole range, so the denominator is
always the number of days in the range (spec section 4.3, zero-fill rule).
Stated for comparison with get_hour_by_hour_average. -/
def spec_hour_by_hour_average (db : Database) (start_date end_date : Int) :
    List (Nat × ℤ) :=
  (List.range 24).map
    (fun h => (h, sqliteRound (listAvg ((rangeDays start_date end_date).map
      (fun d => (groupRows db start_date end_date d h).length)))))

/-- Property of a reported average v for a group of per-day counts: v is the
mean rounded to the nearest integer with halves rounded up (away from zero,
all counts being nonnegative): v - 1/2 <= sum/n < v + 1/2. -/
def roundedNearest (counts : List Nat) (v : ℤ) : Prop :=
  (counts.length : ℤ) * (2 * v - 1) ≤ 2 * (counts.sum : ℤ) ∧
    2 * (counts.sum : ℤ) < (counts.length : ℤ) * (2 * v + 1)

/-- Three join events in hour 5 of day 0 and nothing else: day 1 of the
range [0, 1] has no data at all. -/
def exDb1 : Database :=
  [⟨0, 5, "join", "Ann", "wrld_X:1"⟩,
   ⟨0, 5, "join", "Bob", "wrld_X:1"⟩,
   ⟨0, 5, "leave", "Ann", "wrld_X:1"⟩]

/-- A single row whose location belongs to world wrld_AB, queried below with
the shorter world id wrld_A. -/
def exDb2 : Database :=
  [⟨0, 8, "join", "Ann", "wrld_AB:123"⟩]

/-- Rows on day 7, outside the inverted range [10, 5] used below. -/
def exDb3 : Database :=
  [⟨7, 3, "join", "Ann", "wrld_X:1"⟩,
   ⟨7, 4, "leave", "Ann", "wrld_X:1"⟩]

/-- One event on day 3 (a Wednesday: dow 3 = 3) for the weekly breakdown. -/
def exDb8 : Database :=
  [⟨3, 10, "join", "Ann", "wrld_X:1"⟩]

/-- Rows for the rounding witness: two days of data in hour 2 with counts 2
and 1, whose mean 1.5 rounds up to 2. -/
def exDb10 : Database :=
  [⟨0, 2, "join", "Ann", "wrld_X:1"⟩,
   ⟨0, 2, "leave", "Ann", "wrld_X:1"⟩,
   ⟨1, 2, "join", "Bob", "wrld_X:1"⟩]

/-! Helper lemmas. -/

lemma filter_range_le (n c : ℕ) :
    (List.range n).filter (fun h => decide (h ≤ c)) = List.range (min n (c + 1)) := by
  induction n with
  | zero => simp
  | succ n ih =>
    rw [List.range_succ, List.filter_append, ih]
    by_cases h : n ≤ c
    · have h1 : min n (c + 1) = n := by omega
      have h2 : min (n + 1) (c + 1) = n + 1 := by omega
      simp [h, h1, h2, List.range_succ]
    · have h1 : min n (c + 1) = c + 1 := by omega
      have h2 : min (n + 1) (c + 1) = c + 1 := by omega
      simp [h, h1, h2]

lemma includedHours_past {date_str : Int} {now : Clock} (h : date_str ≠ now.date) :
    includedHours date_str now = List.range 24 := by
  unfold includedHours currentHour
  rw [if_neg h, filter_range_le]
  rfl

lemma includedHours_today {date_str : Int} {now : Clock} (h : date_str = now.date)
    (hh : now.hour ≤ 23) : includedHours date_str now = List.range (now.hour + 1) := by
  unfold includedHours currentHour
  rw [if_pos h, filter_range_le]
  congr 1
  omega

lemma forall₂_map_map {α β γ : Type} (l : List α) (f : α → β) (g : α → γ)
    (r : β → γ → Prop) (h : ∀ a ∈ l, r (f a) (g a)) :
    List.Forall₂ r (l.map f) (l.map g) := by
  induction l with
  | nil => constructor
  | cons a t ih =>
    exact List.Forall₂.cons (h a (by simp)) (ih (fun b hb => h b (by simp [hb])))

lemma dedup_filter {α : Type} [DecidableEq α] (l : List α) (p : α → Bool) :
    l.dedup.filter p = (l.filter p).dedup := by
  induction l with
  | nil => simp
  | cons a t ih =>
    by_cases hp : p a
    · by_cases hm : a ∈ t
      · rw [List.dedup_cons_of_mem hm, List.filter_cons_of_pos hp,
          List.dedup_cons_of_mem (List.mem_filter.mpr ⟨hm, hp⟩), ih]
      · have hm2 : a ∉ t.filter p := fun hc => hm (List.mem_filter.mp hc).1
        rw [List.dedup_cons_of_not_mem hm, List.filter_cons_of_pos hp,
          List.filter_cons_of_pos hp, List.dedup_cons_of_not_mem hm2, ih]
    · by_cases hm : a ∈ t
      · rw [List.dedup_cons_of_mem hm, List.filter_cons_of_neg hp, ih]
      · rw [List.dedup_cons_of_not_mem hm, List.filter_cons_of_neg hp,
          List.filter_cons_of_neg hp, ih]

lemma floor_avg_half (s n : ℕ) (hn : 0 < n) :
    ⌊(s : ℚ) / (n : ℚ) + 1 / 2⌋ = ((2 * s + n : ℕ) : ℤ) / ((2 * n : ℕ) : ℤ) := by
  have hn' : (n : ℚ) ≠ 0 := Nat.cast_ne_zero.mpr hn.ne'
  have hq : (s : ℚ) / (n : ℚ) + 1 / 2
      = (((2 * s + n : ℕ) : ℤ) : ℚ) / ((2 * n : ℕ) : ℚ) := by
    push_cast
    field_simp
    ring
  rw [hq, Rat.floor_intCast_div_natCast]

lemma ediv_round_bounds (S N : ℤ) (hN : 0 < N) :
    N * (2 * ((2 * S + N) / (2 * N)) - 1) ≤ 2 * S ∧
      2 * S < N * (2 * ((2 * S + N) / (2 * N)) + 1) := by
  have h2N : (0 : ℤ) < 2 * N := by omega
  have hmod := Int.ediv_add_emod (2 * S + N) (2 * N)
  have hr1 := Int.emod_nonneg (2 * S + N) h2N.ne'
  have hr2 := Int.emod_lt_of_pos (2 * S + N) h2N
  set Q := (2 * S + N) / (2 * N) with hQ
  set R := (2 * S + N) % (2 * N) with hR
  have e1 : N * (2 * Q - 1) = 2 * (N * Q) - N := by ring
  have e2 : N * (2 * Q + 1) = 2 * (N * Q) + N := by ring
  have e3 : 2 * N * Q = 2 * (N * Q) := by ring
  rw [e3] at hmod
  rw [e1, e2]
  omega

lemma sqliteRound_listAvg (l : List Nat) (hl : l ≠ []) :
    roundedNearest l (sqliteRound (listAvg l)) := by
  have hn : 0 < l.length := List.length_pos.mpr hl
  have havg : (0 : ℚ) ≤ listAvg l := by
    unfold listAvg
    positivity
  unfold sqliteRound
  rw [if_pos havg]
  unfold listAvg
  rw [floor_avg_half l.sum l.length hn]
  have hc1 : ((2 * l.sum + l.length : ℕ) : ℤ) = 2 * (l.sum : ℤ) + (l.length : ℤ) := by
    omega
  have hc2 : ((2 * l.length : ℕ) : ℤ) = 2 * (l.length : ℤ) := by
    omega
  rw [hc1, hc2]
  unfold roundedNearest
  exact ediv_round_bounds (l.sum : ℤ) (l.length : ℤ) (by exact_mod_cast hn)

lemma avgColumn_empty : avgColumn [] = 0 := rfl

lemma avgColumn_rounded (counts : List Nat) (hl : counts ≠ []) :
    roundedNearest counts (avgColumn counts) := by
  unfold avgColumn
  rw [if_neg (by simpa using hl)]
  exact sqliteRound_listAvg counts hl

lemma hourGroup_pairs_map (db : Database) (s e : Int) (h : Nat)
    (cnt : Int → Nat → Nat) :
    hourGroup ((dayHourPairs db s e).map (fun p => (p.1, p.2, cnt p.1 p.2))) h
      = (daysWithData db s e h).map (fun d => cnt d h) := by
  unfold hourGroup
  rw [List.filter_map, List.map_map]
  show ((dayHourPairs db s e).filter (fun p => p.2 == h)).map (fun p => cnt p.1 p.2) = _
  unfold dayHourPairs
  rw [dedup_filter, List.filter_map]
  show ((((rangeRows db s e).filter (fun r => r.hour == h)).map
    (fun r => (r.date, r.hour))).dedup).map (fun p => cnt p.1 p.2) = _
  have hcong : ((rangeRows db s e).filter (fun r => r.hour == h)).map
      (fun r => (r.date, r.hour))
      = ((rangeRows db s e).filter (fun r => r.hour == h)).map (fun r => (r.date, h)) := by
    apply List.map_congr_left
    intro r hr
    have := (List.mem_filter.mp hr).2
    simp only [beq_iff_eq] at this
    rw [this]
  rw [hcong]
  have hsplit : ((rangeRows db s e).filter (fun r => r.hour == h)).map
      (fun r => (r.date, h))
      = (((rangeRows db s e).filter (fun r => r.hour == h)).map
          (fun r => r.date)).map (fun d => (d, h)) := by
    rw [List.map_map]
    rfl
  rw [hsplit, List.dedup_map_of_injective (f := fun d : Int => (d, h))
    (fun a b hab => congrArg Prod.fst hab), List.map_map]
  rfl

/-! Claim theorems. -/

/-- C2, counterexample: the world filter matches on the bare character
prefix with no delimiter check, so filtering by wrld_A does match a
location belonging to world wrld_AB, which the claim forbids. -/
theorem C2_counterexample :
    substrMatch "wrld_AB:123" "wrld_A" = true ∧
    (get_hour_by_hour_summary_for_world exDb2 "wrld_A" 0 ⟨1, 0⟩)[8]? = some (8, 1) := by
  exact ⟨by decide, by decide⟩

/-- C2, amended: a row passes the world filter iff the given world_id is a
character prefix of the row's location string — the filter compares the
first len(world_id) characters only and never inspects the delimiter, so a
world id that is a proper prefix of another world's id also matches the
longer world's locations. -/
theorem C2_world_filter_plain_prefix (location world_id : String) :
    substrMatch location world_id = true ↔ world_id.data <+: location.data := by
  unfold substrMatch
  rw [beq_iff_eq]
  exact ⟨fun h => List.prefix_iff_eq_take.mpr h.symm,
    fun h => (List.prefix_iff_eq_take.mp h).symm⟩

/-- C3, counterexample: with start 10 > end 5 (and a non-empty store) the
average query still runs and produces a normal all-zero 24-row report, and
the daily summary produces an empty report — nothing is detected as fatal
and report output is produced. -/
theorem C3_counterexample :
    get_hour_by_hour_average exDb3 10 5 = (List.range 24).map (fun h => (h, 0)) ∧
    get_daily_hourly_summary exDb3 10 5 = [] := by
  exact ⟨by decide, by decide⟩

/-- C3, amended: no range validation exists; a start date later than the
end date is passed straight into BETWEEN, which then matches no rows, and
the aggregations still run and emit their ordinary empty/all-zero reports. -/
theorem C3_inverted_range_still_reports (db : Database) (s e : Int) (hse : e < s) :
    rangeRows db s e = [] ∧
    get_hour_by_hour_average db s e = (List.range 24).map (fun h => (h, 0)) ∧
    get_unique_visitors_average db s e = (List.range 24).map (fun h => (h, 0)) ∧
    get_daily_hourly_summary db s e = [] := by
  have hr : rangeRows db s e = [] := by
    unfold rangeRows
    rw [List.filter_eq_nil_iff]
    intro r _
    simp only [Bool.and_eq_true, decide_eq_true_eq, not_and]
    intro h1 h2
    omega
  have hp : dayHourPairs db s e = [] := by
    unfold dayHourPairs
    rw [hr]
    rfl
  refine ⟨hr, ?_, ?_, ?_⟩
  · unfold get_hour_by_hour_average hourly_data
    rw [hp]
    rfl
  · unfold get_unique_visitors_average hourly_data_unique
    rw [hp]
    rfl
  · unfold get_daily_hourly_summary
    rw [hp]
    rfl

/-- C3, witness for the amended theorem at the concrete inverted range. -/
theorem C3_witness :
    (5 : Int) < 10 ∧
    (rangeRows exDb3 10 5 = [] ∧
      get_hour_by_hour_average exDb3 10 5 = (List.range 24).map (fun h => (h, 0)) ∧
      get_unique_visitors_average exDb3 10 5 = (List.range 24).map (fun h => (h, 0)) ∧
      get_daily_hourly_summary exDb3 10 5 = []) :=
  ⟨by decide, C3_inverted_range_still_reports exDb3 10 5 (by decide)⟩

/-- C4, counterexample: a failed read returns exactly the value of a
successful empty read, and the summary built through execute from a failing
store is the ordinary empty report — the request is not aborted, it
continues as if the query had returned an empty result. -/
theorem C4_counterexample :
    execute (Except.error "disk I/O error") = execute (Except.ok ([] : Database)) ∧
    get_hour_by_hour_summary_from_store (Except.error "disk I/O error") 5 ⟨6, 0⟩ = [] :=
  ⟨rfl, rfl⟩

/-- C4, amended: only a failed connection aborts the process
(VRCXDatabase.connect calls sys.exit); a failed query is caught inside
execute, which returns the empty list, and the request then continues
exactly as if the query had matched no rows. -/
theorem C4_failed_query_continues_empty (e : String) (db : Database)
    (date_str : Int) (now : Clock) :
    execute (Except.error e) = execute (Except.ok ([] : Database)) ∧
    get_hour_by_hour_summary_from_store (Except.error e) date_str now = [] ∧
    get_hour_by_hour_summary_from_store (Except.ok db) date_str now
      = get_hour_by_hour_summary db date_str now :=
  ⟨rfl, rfl, rfl⟩

/-- C5: for a requested date different from the current date the
hour-of-day output is exactly the 24 hours 0-23 with the (possibly zero)
per-hour counts, and for the current date it is exactly hours 0 through the
current hour inclusive, in both raw and unique modes. -/
theorem C5_partial_day_rule (db : Database) (date_str : Int) (now : Clock) :
    (date_str ≠ now.date →
      get_hour_by_hour_summary db date_str now
        = (List.range 24).map (fun h => (h, (matchingRows db date_str h).length)) ∧
      get_unique_visitors_by_hour db date_str now
        = (List.range 24).map
            (fun h => (h, (distinctNames (matchingRows db date_str h)).length))) ∧
    (date_str = now.date → now.hour ≤ 23 →
      get_hour_by_hour_summary db date_str now
        = (List.range (now.hour + 1)).map
            (fun h => (h, (matchingRows db date_str h).length)) ∧
      get_unique_visitors_by_hour db date_str now
        = (List.range (now.hour + 1)).map
            (fun h => (h, (distinctNames (matchingRows db date_str h)).length))) := by
  constructor
  · intro hne
    unfold get_hour_by_hour_summary get_unique_visitors_by_hour
    rw [includedHours_past hne]
    exact ⟨rfl, rfl⟩
  · intro heq hh
    unfold get_hour_by_hour_summary get_unique_visitors_by_hour
    rw [includedHours_today heq hh]
    exact ⟨rfl, rfl⟩

/-- C5, witness: a past date gives all 24 hour rows, the current date at
hour 2 gives exactly the 3 rows for hours 0-2. -/
theorem C5_witness :
    get_hour_by_hour_summary exDb1 3 ⟨4, 2⟩
      = (List.range 24).map (fun h => (h, (matchingRows exDb1 3 h).length)) ∧
    get_hour_by_hour_summary exDb1 3 ⟨3, 2⟩
      = (List.range (2 + 1)).map (fun h => (h, (matchingRows exDb1 3 h).length)) :=
  ⟨((C5_partial_day_rule exDb1 3 ⟨4, 2⟩).1 (by decide)).1,
   ((C5_partial_day_rule exDb1 3 ⟨3, 2⟩).2 rfl (by decide)).1⟩

/-- C6, counterexample: for a requested date equal to the current date, two
runs of the same aggregation against the same unmodified store at different
clock hours return different outputs (6 rows at hour 5, 7 rows at hour 6),
so the output is not a function of the store snapshot and the parameters
alone. -/
theorem C6_counterexample :
    get_hour_by_hour_summary [] 5 ⟨5, 5⟩ ≠ get_hour_by_hour_summary [] 5 ⟨5, 6⟩ := by
  decide

/-- C6, amended: the single-date aggregations are deterministic functions
of the store snapshot, the parameters, and the ambient clock; whenever the
requested date differs from the clock date at both runs (in particular for
any past date), the clock drops out and two runs yield identical outputs in
both modes. -/
theorem C6_deterministic_past_date (db : Database) (date_str : Int)
    (now₁ now₂ : Clock) (h1 : date_str ≠ now₁.date) (h2 : date_str ≠ now₂.date) :
    get_hour_by_hour_summary db date_str now₁
      = get_hour_by_hour_summary db date_str now₂ ∧
    get_unique_visitors_by_hour db date_str now₁
      = get_unique_visitors_by_hour db date_str now₂ := by
  unfold get_hour_by_hour_summary get_unique_visitors_by_hour
  rw [includedHours_past h1, includedHours_past h2]
  exact ⟨rfl, rfl⟩

/-- C6, witness for the amended theorem: two runs at unrelated clock values
agree on a past date. -/
theorem C6_witness :
    (5 : Int) ≠ (6 : Int) ∧ (5 : Int) ≠ (7 : Int) ∧
    get_hour_by_hour_summary exDb1 5 ⟨6, 2⟩ = get_hour_by_hour_summary exDb1 5 ⟨7, 9⟩ :=
  ⟨by decide, by decide,
    (C6_deterministic_past_date exDb1 5 ⟨6, 2⟩ ⟨7, 9⟩ (by decide) (by decide)).1⟩

/-- C7: bucket by bucket, the unique-mode output pairs with the raw-mode
output on the same hour key and its count never exceeds the raw count, for
the unfiltered, instance-filtered and world-filtered hourly summaries. -/
theorem C7_unique_le_raw (db : Database) (date_str : Int) (now : Clock) :
    List.Forall₂ (fun pu pr => pu.1 = pr.1 ∧ pu.2 ≤ pr.2)
      (get_unique_visitors_by_hour db date_str now)
      (get_hour_by_hour_summary db date_str now) ∧
    (∀ instance_id : String,
      List.Forall₂ (fun pu pr => pu.1 = pr.1 ∧ pu.2 ≤ pr.2)
        (get_unique_visitors_by_hour_for_instance db instance_id date_str now)
        (get_hour_by_hour_summary_for_instance db instance_id date_str now)) ∧
    (∀ world_id : String,
      List.Forall₂ (fun pu pr => pu.1 = pr.1 ∧ pu.2 ≤ pr.2)
        (get_unique_visitors_by_hour_for_world db world_id date_str now)
        (get_hour_by_hour_summary_for_world db world_id date_str now)) := by
  refine ⟨?_, fun instance_id => ?_, fun world_id => ?_⟩ <;>
  · apply forall₂_map_map
    intro h _
    refine ⟨rfl, ?_⟩
    unfold distinctNames
    exact le_trans (List.Sublist.length_le (List.dedup_sublist _))
      (le_of_eq (List.length_map _ _))

/-- C9: when the instance fragment contains no ':' delimiter and a world id
is supplied, main rewrites the fragment to world_id ++ ":" ++ fragment, so
the instance aggregations on the materialized id coincide with the ones on
the pre-concatenated full location string, in both modes. -/
theorem C9_instance_materialization (db : Database) (w frag : String)
    (date_str : Int) (now : Clock) (hfrag : ':' ∉ frag.data) :
    materialize_instance_id (some w) frag = w ++ ":" ++ frag ∧
    get_hour_by_hour_summary_for_instance db
        (materialize_instance_id (some w) frag) date_str now
      = get_hour_by_hour_summary_for_instance db (w ++ ":" ++ frag) date_str now ∧
    get_unique_visitors_by_hour_for_instance db
        (materialize_instance_id (some w) frag) date_str now
      = get_unique_visitors_by_hour_for_instance db (w ++ ":" ++ frag) date_str now := by
  have hm : materialize_instance_id (some w) frag = w ++ ":" ++ frag := by
    show (if ':' ∈ frag.data then frag else w ++ ":" ++ frag) = w ++ ":" ++ frag
    rw [if_neg hfrag]
  exact ⟨hm, by rw [hm], by rw [hm]⟩

/-- C9, witness at a concrete bare fragment and world id. -/
theorem C9_witness :
    ':' ∉ "12345~private".data ∧
    (materialize_instance_id (some "wrld_A") "12345~private"
        = "wrld_A" ++ ":" ++ "12345~private" ∧
      get_hour_by_hour_summary_for_instance exDb2
          (materialize_instance_id (some "wrld_A") "12345~private") 0 ⟨1, 0⟩
        = get_hour_by_hour_summary_for_instance exDb2
            ("wrld_A" ++ ":" ++ "12345~private") 0 ⟨1, 0⟩ ∧
      get_unique_visitors_by_hour_for_instance exDb2
          (materialize_instance_id (some "wrld_A") "12345~private") 0 ⟨1, 0⟩
        = get_unique_visitors_by_hour_for_instance exDb2
            ("wrld_A" ++ ":" ++ "12345~private") 0 ⟨1, 0⟩) :=
  ⟨by decide,
    C9_instance_materialization exDb2 "wrld_A" "12345~private" 0 ⟨1, 0⟩ (by decide)⟩

lemma hourGroup_hourly_data (db : Database) (s e : Int) (h : Nat) :
    hourGroup (hourly_data db s e) h
      = (daysWithData db s e h).map (fun d => (groupRows db s e d h).length) :=
  hourGroup_pairs_map db s e h (fun d hh => (groupRows db s e d hh).length)

lemma hourGroup_hourly_data_unique (db : Database) (s e : Int) (h : Nat) :
    hourGroup (hourly_data_unique db s e) h
      = (daysWithData db s e h).map
          (fun d => (distinctNames (groupRows db s e d h)).length) :=
  hourGroup_pairs_map db s e h
    (fun d hh => (distinctNames (groupRows db s e d hh)).length)

/-- C1, counterexample: with three events in hour 5 of day 0 and a second
day without data, over the range [0, 1] the claim's formula gives
round((3 + 0) / 2) = 2 for hour 5 while the implementation reports
round(3 / 1) = 3 — the implementation divides by the number of days that
have data in the hour, not by the number of days in the range. -/
theorem C1_counterexample :
    (get_hour_by_hour_average exDb1 0 1)[5]? = some (5, 3) ∧
    (spec_hour_by_hour_average exDb1 0 1)[5]? = some (5, 2) := by
  constructor
  · have h1 : (get_hour_by_hour_average exDb1 0 1)[5]?
        = some (5, avgColumn (hourGroup (hourly_data exDb1 0 1) 5)) := by
      unfold get_hour_by_hour_average
      rw [List.getElem?_map]
      rfl
    have hg : hourGroup (hourly_data exDb1 0 1) 5 = [3] := by decide
    have hv : avgColumn [3] = 3 := by
      simp only [avgColumn, sqliteRound, listAvg, List.isEmpty, List.sum_cons,
        List.sum_nil, List.length_cons, List.length_nil]
      norm_num
    rw [h1, hg, hv]
  · have h2 : (spec_hour_by_hour_average exDb1 0 1)[5]?
        = some (5, sqliteRound (listAvg ((rangeDays 0 1).map
            (fun d => (groupRows exDb1 0 1 d 5).length)))) := by
      unfold spec_hour_by_hour_average
      rw [List.getElem?_map]
      rfl
    have hg : (rangeDays 0 1).map (fun d => (groupRows exDb1 0 1 d 5).length)
        = [3, 0] := by decide
    have hv : sqliteRound (listAvg [3, 0]) = 2 := by
      simp only [sqliteRound, listAvg, List.sum_cons, List.sum_nil,
        List.length_cons, List.length_nil]
      norm_num
    rw [h2, hg, hv]

/-- C1, amended: in both modes the reported average for hour H is the
rounded mean of the per-day counts of exactly those days that have at least
one row in hour H — the denominator is the number of days with data in that
hour (with 0 reported when no day has data in the hour), not the number of
days in the range. -/
theorem C1_average_over_days_with_data (db : Database) (s e : Int) :
    get_hour_by_hour_average db s e
      = (List.range 24).map (fun h => (h, avgColumn
          ((daysWithData db s e h).map (fun d => (groupRows db s e d h).length)))) ∧
    get_unique_visitors_average db s e
      = (List.range 24).map (fun h => (h, avgColumn
          ((daysWithData db s e h).map
            (fun d => (distinctNames (groupRows db s e d h)).length)))) := by
  constructor
  · unfold get_hour_by_hour_average
    apply List.map_congr_left
    intro h _
    rw [hourGroup_hourly_data]
  · unfold get_unique_visitors_average
    apply List.map_congr_left
    intro h _
    rw [hourGroup_hourly_data_unique]

/-- C8: week_end is the nearest Sunday on or after the event date (the date
itself when it is a Sunday), week_start is six days earlier, so every week
bucket spans exactly 7 days ending on Sunday; and every row of both weekly
breakdowns carries exactly the week bucket of some event date inside the
requested range, computed from that date alone (the bucket boundaries are
not clipped to the range). -/
theorem C8_week_bucketing :
    (∀ d : Int, dow (weekEnd d) = 0 ∧ d ≤ weekEnd d ∧ weekEnd d ≤ d + 6 ∧
      weekStart d = weekEnd d - 6 ∧ (dow d = 0 → weekEnd d = d) ∧
      ∀ d2 : Int, d ≤ d2 → dow d2 = 0 → weekEnd d ≤ d2) ∧
    (∀ (db : Database) (s e : Int), ∀ row ∈ get_weekly_day_of_week_breakdown db s e,
      ∃ d, (s ≤ d ∧ d ≤ e) ∧
        row = ⟨weekStart d, weekEnd d, dow d, dayName (dow d),
          (dayRows db s e d).length⟩) ∧
    (∀ (db : Database) (s e : Int), ∀ row ∈ get_unique_visitors_weekly db s e,
      ∃ d, (s ≤ d ∧ d ≤ e) ∧
        row = ⟨weekStart d, weekEnd d, dow d, dayName (dow d),
          (distinctNames (dayRows db s e d)).length⟩) := by
  refine ⟨?_, ?_, ?_⟩
  · intro d
    unfold dow weekStart weekEnd
    refine ⟨by omega, by omega, by omega, rfl, by omega, fun d2 h1 h2 => by omega⟩
  · intro db s e row hrow
    unfold get_weekly_day_of_week_breakdown at hrow
    obtain ⟨d, hd, heq⟩ := List.mem_map.mp hrow
    have hd2 : d ∈ dates_in_data db s e := (List.mem_insertionSort weekKeyLe).mp hd
    unfold dates_in_data at hd2
    obtain ⟨r, hr, hrd⟩ := List.mem_map.mp (List.mem_dedup.mp hd2)
    have hcond := (List.mem_filter.mp hr).2
    simp only [Bool.and_eq_true, decide_eq_true_eq] at hcond
    exact ⟨d, ⟨hrd ▸ hcond.1, hrd ▸ hcond.2⟩, heq.symm⟩
  · intro db s e row hrow
    unfold get_unique_visitors_weekly at hrow
    obtain ⟨d, hd, heq⟩ := List.mem_map.mp hrow
    have hd2 : d ∈ dates_in_data db s e := (List.mem_insertionSort weekKeyLe).mp hd
    unfold dates_in_data at hd2
    obtain ⟨r, hr, hrd⟩ := List.mem_map.mp (List.mem_dedup.mp hd2)
    have hcond := (List.mem_filter.mp hr).2
    simp only [Bool.and_eq_true, decide_eq_true_eq] at hcond
    exact ⟨d, ⟨hrd ▸ hcond.1, hrd ▸ hcond.2⟩, heq.symm⟩

/-- C8, witness: day 3 (a Wednesday) over the range [0, 6] produces the
bucket week_start 1 (Monday), week_end 7 (the following Sunday). -/
theorem C8_witness :
    (⟨1, 7, 3, "Wednesday", 1⟩ : WeeklyRow)
        ∈ get_weekly_day_of_week_breakdown exDb8 0 6 ∧
    ∃ d, ((0 : Int) ≤ d ∧ d ≤ 6) ∧ (⟨1, 7, 3, "Wednesday", 1⟩ : WeeklyRow)
        = ⟨weekStart d, weekEnd d, dow d, dayName (dow d),
            (dayRows exDb8 0 6 d).length⟩ :=
  ⟨by decide, C8_week_bucketing.2.1 exDb8 0 6 _ (by decide)⟩

/-- C10: every value reported by the four multi-day average aggregations is
an integer v that is the exact rational mean of its group's per-day counts
rounded to the nearest integer with halves rounded away from zero
(v - 1/2 <= mean < v + 1/2), the hourly variants reporting 0 for an hour
with no data. -/
theorem C10_average_rounded (db : Database) (s e : Int) :
    (∀ p ∈ get_hour_by_hour_average db s e,
      (hourGroup (hourly_data db s e) p.1 = [] → p.2 = 0) ∧
      (hourGroup (hourly_data db s e) p.1 ≠ [] →
        roundedNearest (hourGroup (hourly_data db s e) p.1) p.2)) ∧
    (∀ p ∈ get_unique_visitors_average db s e,
      (hourGroup (hourly_data_unique db s e) p.1 = [] → p.2 = 0) ∧
      (hourGroup (hourly_data_unique db s e) p.1 ≠ [] →
        roundedNearest (hourGroup (hourly_data_unique db s e) p.1) p.2)) ∧
    (∀ p ∈ get_day_of_week_average db s e,
      dowGroupRaw db s e p.1 ≠ [] ∧ roundedNearest (dowGroupRaw db s e p.1) p.2) ∧
    (∀ p ∈ get_unique_visitors_day_of_week db s e,
      dowGroupUnique db s e p.1 ≠ [] ∧
        roundedNearest (dowGroupUnique db s e p.1) p.2) := by
  refine ⟨?_, ?_, ?_, ?_⟩
  · intro p hp
    obtain ⟨h, _, rfl⟩ := List.mem_map.mp hp
    refine ⟨fun hg => ?_, fun hg => avgColumn_rounded _ hg⟩
    show avgColumn (hourGroup (hourly_data db s e) h) = 0
    rw [hg]
    rfl
  · intro p hp
    obtain ⟨h, _, rfl⟩ := List.mem_map.mp hp
    refine ⟨fun hg => ?_, fun hg => avgColumn_rounded _ hg⟩
    show avgColumn (hourGroup (hourly_data_unique db s e) h) = 0
    rw [hg]
    rfl
  · intro p hp
    obtain ⟨w, hw, rfl⟩ := List.mem_map.mp hp
    have hw2 := (List.mem_filter.mp hw).2
    simp only [decide_eq_true_eq] at hw2
    obtain ⟨d, hd, hdw⟩ := List.mem_map.mp hw2
    have hne : dowGroupRaw db s e w ≠ [] :=
      List.ne_nil_of_mem
        (List.mem_map_of_mem _ (List.mem_filter.mpr ⟨hd, by simp [hdw]⟩))
    exact ⟨hne, sqliteRound_listAvg _ hne⟩
  · intro p hp
    obtain ⟨w, hw, rfl⟩ := List.mem_map.mp hp
    have hw2 := (List.mem_filter.mp hw).2
    simp only [decide_eq_true_eq] at hw2
    obtain ⟨d, hd, hdw⟩ := List.mem_map.mp hw2
    have hne : dowGroupUnique db s e w ≠ [] :=
      List.ne_nil_of_mem
        (List.mem_map_of_mem _ (List.mem_filter.mpr ⟨hd, by simp [hdw]⟩))
    exact ⟨hne, sqliteRound_listAvg _ hne⟩

/-- C10, witness: hour 2 of the range [0, 1] has per-day counts 2 and 1;
the reported average is bracketed by the rounding bounds around the mean
3/2. -/
theorem C10_witness :
    ((2 : Nat), avgColumn (hourGroup (hourly_data exDb10 0 1) 2))
        ∈ get_hour_by_hour_average exDb10 0 1 ∧
    hourGroup (hourly_data exDb10 0 1) 2 ≠ [] ∧
    roundedNearest (hourGroup (hourly_data exDb10 0 1) 2)
      (avgColumn (hourGroup (hourly_data exDb10 0 1) 2)) := by
  have hp : ((2 : Nat), avgColumn (hourGroup (hourly_data exDb10 0 1) 2))
      ∈ get_hour_by_hour_average exDb10 0 1 :=
    List.mem_map_of_mem _ (by decide)
  have hne : hourGroup (hourly_data exDb10 0 1) 2 ≠ [] := by decide
  exact ⟨hp, hne, ((C10_average_rounded exDb10 0 1).1 _ hp).2 hne⟩

end VRCX
